import Mathlib

/-
Verification of the UC-2000 message encoder (synradUC2000.py).

The development shallowly embeds the two core components of the file:
the carry-less decimal adder `Message.add_no_carry` and the encoder
property `Message.message_bytes`.  Python dynamic values that can reach
the encoder in the claims under study are modelled by the inductive
type `PyVal` (machine integers, booleans and strings); Python floats
are outside the embedding (IEEE-754 representation and `str` formatting
are not modelled).  Python exceptions become an explicit error type:
`KeyError` from the catalog lookup, the two `ValueError` sites of
`message_bytes`, and the `TypeError` that `add_no_carry` raises when
handed a string.
-/

namespace SynradUC2000

set_option maxRecDepth 8192

/-- Python runtime value reaching the encoder: an int, a bool, or a str. -/
inductive PyVal where
  | int (n : Int)
  | bool (b : Bool)
  | str (s : String)
deriving DecidableEq

/-- Exceptions raised by `Message.message_bytes` and its helper.
`keyError` is the uncaught `KeyError` of the catalog lookup
(line 193); `valueErrorData` is the `ValueError` re-raised when
`int(2*data)` fails (lines 207-209); `valueErrorCommand` is the
`ValueError` of the final `else` (line 224); `typeError` is the
`TypeError` that `add_no_carry` raises on a string argument
(`"s" % 10` is a format operation in Python). -/
inductive PyErr where
  | keyError
  | valueErrorData
  | valueErrorCommand
  | typeError
deriving DecidableEq

/-- Numeric view of a Python value: Python bools are the integers 0 and 1;
strings are not numbers. -/
def pyNum : PyVal → Option Int
  | .int n => some n
  | .bool b => some (if b then 1 else 0)
  | .str _ => none

/-- Python equality `==` on the modelled values: numeric values compare by
value (so `True == 1` and `False == 0`), strings compare by content, and
a string never equals a number. -/
def pyEq (a b : PyVal) : Bool :=
  match a, b with
  | .str s, .str t => s == t
  | .str _, _ => false
  | _, .str _ => false
  | a, b => pyNum a == pyNum b

/-- Python `2 * data`: doubles a number, repeats a string
(`2 * "10" == "1010"`), and promotes a bool to an int. -/
def pyMul2 : PyVal → PyVal
  | .int n => .int (2 * n)
  | .bool b => .int (2 * (if b then 1 else 0))
  | .str s => .str (s ++ s)

/-- Value of a list of decimal digit characters, most significant first. -/
def digitsToNat (cs : List Char) : Nat :=
  cs.foldl (fun a c => 10 * a + (c.toNat - 48)) 0

/-- Parse a non-empty all-digit character list; `none` otherwise. -/
def parseDigits (cs : List Char) : Option Nat :=
  if cs ≠ [] ∧ cs.all Char.isDigit then some (digitsToNat cs) else none

/-- Parse the character list of a Python int literal: an optional sign
followed by at least one decimal digit. -/
def pyIntOfChars : List Char → Option Int
  | [] => none
  | c :: rest =>
    if c = '-' then (parseDigits rest).map (fun n => -(n : Int))
    else if c = '+' then (parseDigits rest).map (fun n => (n : Int))
    else (parseDigits (c :: rest)).map (fun n => (n : Int))

/-- Python `int(s)` on a string: an optional sign followed by at least one
decimal digit; anything else raises `ValueError` (modelled as `none`). -/
def pyIntOfString (s : String) : Option Int :=
  pyIntOfChars s.data

/-- Python `int(v)`: identity on ints, 0 or 1 on bools, string parsing on
strings (`none` models the `ValueError`). -/
def pyInt : PyVal → Option Int
  | .int n => some n
  | .bool b => some (if b then 1 else 0)
  | .str s => pyIntOfString s

/-- The command catalog `_UC2000_COMMAND_BYTES` (lines 74-103): a mapping
from command-family name to a mapping from data key to command byte. -/
def _UC2000_COMMAND_BYTES : List (String × List (PyVal × Int)) :=
  [ ("pwm_freq", [(.int 5, 0x77), (.int 10, 0x78), (.int 20, 0x7a)]),
    ("gate_logic", [(.str "up", 0x7a), (.str "down", 0x7b)]),
    ("max_pwm", [(.int 95, 0x7c), (.int 99, 0x7d)]),
    ("lase_on_power_up", [(.bool true, 0x30), (.bool false, 0x31)]),
    ("mode", [(.str "manual", 0x70), (.str "anc", 0x71), (.str "anv", 0x72),
              (.str "man_closed", 0x73), (.str "anv_closed", 0x74)]),
    ("lase", [(.bool true, 0x75), (.bool false, 0x76)]) ]

/-- Membership test plus lookup `_UC2000_COMMAND_BYTES[self.command]`. -/
def famLookup (command : String) : Option (List (PyVal × Int)) :=
  (_UC2000_COMMAND_BYTES.find? (fun fc => fc.1 == command)).map (fun fc => fc.2)

/-- Python dict lookup `family[self.data]`: the stored key is compared to
the data with Python `==` (so int keys also match equal bools and
conversely); `none` models the `KeyError`. -/
def keyLookup (entries : List (PyVal × Int)) (data : PyVal) : Option Int :=
  (entries.find? (fun kv => pyEq kv.1 data)).map (fun kv => kv.2)

/-- Python `len(str(n))` for an int `n`: the decimal digit count, plus one
for the minus sign when negative.  `Nat.toDigits 10 n` is the digit-string
of a natural number, as in `str(n)`. -/
def pyStrLen (n : Int) : Nat :=
  if n < 0 then (Nat.toDigits 10 (-n).toNat).length + 1
  else (Nat.toDigits 10 n.toNat).length

/-- Digit extraction `arg % 10**pwr // 10**(pwr - 1)` (line 273).  Python
`%` with a positive modulus is Euclidean mod (always non-negative), after
which the floor division is plain natural division. -/
def pyDigit (a : Int) (pwr : Nat) : Nat :=
  (a.emod (10 ^ pwr)).toNat / 10 ^ (pwr - 1)

/-- `Message.add_no_carry` (lines 228-282), translated loop for loop.
`max_digits` is the maximum of `len(str(arg))`; for each decimal position
`pwr` from 1 to `max_digits` the digits of the arguments with at least
`pwr` characters are summed, and `final_sum += result_no_carry % 10`
accumulates each positional result into a plain running total (Python
`max` on the empty list raises; the claims only use non-empty argument
lists, where the fold below computes the same maximum). -/
def add_no_carry (args : List Int) : Int :=
  let max_digits := (args.map pyStrLen).foldl max 0
  (((List.range max_digits).map (fun i =>
    let pwr := i + 1
    ((args.filter (fun a => pwr ≤ pyStrLen a)).map (fun a => pyDigit a pwr)).sum % 10)).sum : Nat)

/-- Python `~x & 0xff`: bitwise NOT is `-x-1`, and masking an arbitrary
int with `0xff` is the floor (here Euclidean) remainder mod 256. -/
def notAndFF (x : Int) : Int :=
  (-(x + 1)).emod 256

/-- STX start transmission byte (line 167). -/
def _start_byte : Int := 0x5b

/-- Status request byte (line 169). -/
def _status_request_byte : Int := 0x7e

/-- Set-percent command byte (line 170). -/
def _set_percent_byte : Int := 0x7f

/-- `Message.message_bytes` (lines 181-226).  Dispatch order follows the
source: catalog families first, then "percent", then "status_request",
else the unrecognised-command error.  The percent branch computes the
data byte `int(2*data)` before the optional checksum
`~add_no_carry(0x7f, data) & 0xff`, which is taken over the raw data
value; a string data value there makes `add_no_carry` raise `TypeError`,
while the in-place list appends of the source are flattened into literal
lists. -/
def message_bytes (command : String) (data : PyVal) (checksum : Bool) :
    Except PyErr (List Int) :=
  match famLookup command with
  | some entries =>
    match keyLookup entries data with
    | none => .error .keyError
    | some command_byte =>
      if checksum then .ok [_start_byte, command_byte, notAndFF command_byte]
      else .ok [_start_byte, command_byte]
  | none =>
    if command = "percent" then
      match pyInt (pyMul2 data) with
      | none => .error .valueErrorData
      | some data_byte =>
        if checksum then
          match pyNum data with
          | none => .error .typeError
          | some d =>
            .ok [_start_byte, _set_percent_byte, data_byte,
                 notAndFF (add_no_carry [_set_percent_byte, d])]
        else .ok [_start_byte, _set_percent_byte, data_byte]
    else if command = "status_request" then .ok [_status_request_byte]
    else .error .valueErrorCommand

/-- The error kinds the specification calls InvalidData: the `KeyError`
of an illegal catalog key and the `ValueError` of a failed percent-data
conversion. -/
def IsInvalidData (e : PyErr) : Prop :=
  e = .keyError ∨ e = .valueErrorData

/-- Reduction of `message_bytes` once the command resolves to a catalog
family. -/
theorem message_bytes_of_fam (c : String) (d : PyVal) (cs : Bool)
    (entries : List (PyVal × Int)) (hf : famLookup c = some entries) :
    message_bytes c d cs =
      match keyLookup entries d with
      | none => .error .keyError
      | some command_byte =>
        if cs then .ok [_start_byte, command_byte, notAndFF command_byte]
        else .ok [_start_byte, command_byte] := by
  unfold message_bytes
  rw [hf]

/-- Reduction of `message_bytes` on the percent command. -/
theorem message_bytes_percent (d : PyVal) (cs : Bool) :
    message_bytes "percent" d cs =
      match pyInt (pyMul2 d) with
      | none => .error .valueErrorData
      | some data_byte =>
        if cs then
          match pyNum d with
          | none => .error .typeError
          | some n =>
            .ok [_start_byte, _set_percent_byte, data_byte,
                 notAndFF (add_no_carry [_set_percent_byte, n])]
        else .ok [_start_byte, _set_percent_byte, data_byte] :=
  rfl

/-- Reduction of `message_bytes` on an unknown command. -/
theorem message_bytes_of_unknown (c : String) (hf : famLookup c = none)
    (hp : c ≠ "percent") (hs : c ≠ "status_request") (d : PyVal) (cs : Bool) :
    message_bytes c d cs = .error .valueErrorCommand := by
  unfold message_bytes
  simp only [hf]
  rw [if_neg hp, if_neg hs]

/-- The catalog never resolves the percent command. -/
theorem famLookup_percent : famLookup "percent" = none :=
  rfl

/-- The catalog never resolves the status-request command. -/
theorem famLookup_status_request : famLookup "status_request" = none :=
  rfl

/-- Exhaustive classification of `message_bytes`: every call lands in one
of eight mutually explicit situations, each recording the control-flow
facts of its branch together with the returned value. -/
theorem message_bytes_cases (c : String) (d : PyVal) (cs : Bool) :
    (∃ entries b, famLookup c = some entries ∧ keyLookup entries d = some b ∧
      message_bytes c d cs =
        if cs then .ok [_start_byte, b, notAndFF b]
        else .ok [_start_byte, b]) ∨
    (∃ entries, famLookup c = some entries ∧ keyLookup entries d = none ∧
      message_bytes c d cs = .error .keyError) ∨
    (famLookup c = none ∧ c = "percent" ∧ pyInt (pyMul2 d) = none ∧
      message_bytes c d cs = .error .valueErrorData) ∨
    (famLookup c = none ∧ c = "percent" ∧ cs = false ∧
      (∃ db, pyInt (pyMul2 d) = some db ∧
        message_bytes c d cs = .ok [_start_byte, _set_percent_byte, db])) ∨
    (famLookup c = none ∧ c = "percent" ∧ cs = true ∧
      (∃ db n, pyInt (pyMul2 d) = some db ∧ pyNum d = some n ∧
        message_bytes c d cs =
          .ok [_start_byte, _set_percent_byte, db,
               notAndFF (add_no_carry [_set_percent_byte, n])])) ∨
    (famLookup c = none ∧ c = "percent" ∧ cs = true ∧
      (∃ db, pyInt (pyMul2 d) = some db) ∧ pyNum d = none ∧
      message_bytes c d cs = .error .typeError) ∨
    (famLookup c = none ∧ c ≠ "percent" ∧ c = "status_request" ∧
      message_bytes c d cs = .ok [_status_request_byte]) ∨
    (famLookup c = none ∧ c ≠ "percent" ∧ c ≠ "status_request" ∧
      message_bytes c d cs = .error .valueErrorCommand) := by
  rcases hf : famLookup c with _ | entries
  · by_cases hp : c = "percent"
    · subst hp
      rcases hi : pyInt (pyMul2 d) with _ | db
      · refine Or.inr (Or.inr (Or.inl ⟨rfl, rfl, rfl, ?_⟩))
        rw [message_bytes_percent, hi]
      · cases cs
        · refine Or.inr (Or.inr (Or.inr (Or.inl ⟨rfl, rfl, rfl, db, rfl, ?_⟩)))
          rw [message_bytes_percent, hi]
          rfl
        · rcases hn : pyNum d with _ | n
          · refine Or.inr (Or.inr (Or.inr (Or.inr (Or.inr (Or.inl
              ⟨rfl, rfl, rfl, ⟨db, rfl⟩, rfl, ?_⟩)))))
            rw [message_bytes_percent, hi, hn]
            rfl
          · refine Or.inr (Or.inr (Or.inr (Or.inr (Or.inl
              ⟨rfl, rfl, rfl, db, n, rfl, rfl, ?_⟩))))
            rw [message_bytes_percent, hi, hn]
            rfl
    · by_cases hs : c = "status_request"
      · subst hs
        exact Or.inr (Or.inr (Or.inr (Or.inr (Or.inr (Or.inr (Or.inl
          ⟨rfl, hp, rfl, rfl⟩))))))
      · exact Or.inr (Or.inr (Or.inr (Or.inr (Or.inr (Or.inr (Or.inr
          ⟨rfl, hp, hs, message_bytes_of_unknown c hf hp hs d cs⟩))))))
  · rcases hk : keyLookup entries d with _ | b
    · refine Or.inr (Or.inl ⟨entries, rfl, hk, ?_⟩)
      rw [message_bytes_of_fam c d cs entries hf, hk]
    · refine Or.inl ⟨entries, b, rfl, hk, ?_⟩
      rw [message_bytes_of_fam c d cs entries hf, hk]

/-- Every command byte stored in the catalog is a byte value. -/
theorem catalog_entries_range :
    ∀ fc ∈ _UC2000_COMMAND_BYTES, ∀ kv ∈ fc.2, 0 ≤ kv.2 ∧ kv.2 ≤ 255 := by
  decide

/-- A successful catalog lookup returns a byte value. -/
theorem keyLookup_range (c : String) (entries : List (PyVal × Int))
    (d : PyVal) (b : Int) (hf : famLookup c = some entries)
    (hk : keyLookup entries d = some b) : 0 ≤ b ∧ b ≤ 255 := by
  obtain ⟨fc, hfind, hfc⟩ := Option.map_eq_some'.mp hf
  obtain ⟨kv, hkfind, hkv⟩ := Option.map_eq_some'.mp hk
  have hmem := List.mem_of_find?_eq_some hfind
  have hkmem := List.mem_of_find?_eq_some hkfind
  have hrange := catalog_entries_range fc hmem kv (hfc ▸ hkmem)
  rw [hkv] at hrange
  exact hrange

/-- The masked complement is always a byte value. -/
theorem notAndFF_range (x : Int) : 0 ≤ notAndFF x ∧ notAndFF x ≤ 255 := by
  unfold notAndFF
  constructor
  · exact Int.emod_nonneg _ (by norm_num)
  · have h := Int.emod_lt_of_pos (-(x + 1)) (show (0 : Int) < 256 by norm_num)
    exact Int.lt_add_one_iff.mp h

/-- Numeric data doubles numerically under `int(2 * data)`. -/
theorem pyInt_pyMul2_num (d : PyVal) (n : Int) (hn : pyNum d = some n) :
    pyInt (pyMul2 d) = some (2 * n) := by
  cases d with
  | int m =>
    injection hn with h
    subst h
    rfl
  | bool b =>
    injection hn with h
    subst h
    cases b <;> rfl
  | str s => cases hn

/-- Parsing a non-empty all-digit character list yields its value. -/
theorem parseDigits_of_digits (cs : List Char) (h1 : cs ≠ [])
    (h2 : cs.all Char.isDigit = true) :
    parseDigits cs = some (digitsToNat cs) := by
  unfold parseDigits
  rw [if_pos ⟨h1, h2⟩]

/-- Parsing a character list that starts with a digit and consists only
of digits yields its value. -/
theorem pyIntOfChars_digits (c : Char) (rest : List Char)
    (h2 : (c :: rest).all Char.isDigit = true) :
    pyIntOfChars (c :: rest) = some ((digitsToNat (c :: rest) : Nat) : Int) := by
  have h2' := h2
  simp only [List.all_cons, Bool.and_eq_true] at h2
  obtain ⟨hc, _⟩ := h2
  have hcm : c ≠ '-' := fun h => absurd (h ▸ hc) (by decide)
  have hcp : c ≠ '+' := fun h => absurd (h ▸ hc) (by decide)
  simp only [pyIntOfChars]
  rw [if_neg hcm, if_neg hcp,
      parseDigits_of_digits (c :: rest) (List.cons_ne_nil c rest) h2']
  rfl

/-- C1: evaluation of add_no_carry at the inputs named by the claim.
The code returns 2, 10 and 1, not the claimed 2, 19 and 10: line 279
(`final_sum += result_no_carry % 10`) adds each positional modulo-10
digit into a plain running total instead of restoring its decimal place
value, so the result is not the digit-wise modulo-10 positional sum that
the claim and the docstring examples of the source (lines 245-254)
describe. -/
theorem C1_add_no_carry_eval :
    add_no_carry [1, 1] = 2 ∧ add_no_carry [1, 18] = 10 ∧
    add_no_carry [1, 19] = 1 := by
  decide

/-- C2: evaluation of add_no_carry on single arguments.  The code
returns the sum of the decimal digits of the input, not the input
itself: 18 maps to 9 and 205 maps to 7, against the claimed identity;
only single-digit inputs such as 7 are fixed points. -/
theorem C2_add_no_carry_single :
    add_no_carry [18] = 9 ∧ add_no_carry [205] = 7 ∧ add_no_carry [7] = 7 := by
  decide

/-- C3: for every integer data value d, the percent message without
checksum is [0x5b, 0x7f, 2*d], and with checksum the same three bytes
followed by (NOT add_no_carry(0x7f, d)) & 0xff, the carry-less sum being
taken over the raw data value; at d = 10 the bytes are [0x5b, 0x7f, 20],
and the checksum byte evaluates to 244. -/
theorem C3_percent_encoding :
    (∀ d : Int,
      message_bytes "percent" (.int d) false =
        .ok [_start_byte, _set_percent_byte, 2 * d] ∧
      message_bytes "percent" (.int d) true =
        .ok [_start_byte, _set_percent_byte, 2 * d,
             notAndFF (add_no_carry [_set_percent_byte, d])]) ∧
    message_bytes "percent" (.int 10) false = .ok [0x5b, 0x7f, 20] ∧
    message_bytes "percent" (.int 10) true = .ok [0x5b, 0x7f, 20, 244] :=
  ⟨fun _d => ⟨rfl, rfl⟩, rfl, rfl⟩

/-- C4: for every catalog family and every legal key, the encoding is
the start byte followed by the catalog byte, and with checksum enabled
additionally the masked complement of the catalog byte. -/
theorem C4_catalog_encoding :
    message_bytes "pwm_freq" (.int 5) false = .ok [_start_byte, 0x77] ∧
    message_bytes "pwm_freq" (.int 5) true =
      .ok [_start_byte, 0x77, notAndFF 0x77] ∧
    message_bytes "pwm_freq" (.int 10) false = .ok [_start_byte, 0x78] ∧
    message_bytes "pwm_freq" (.int 10) true =
      .ok [_start_byte, 0x78, notAndFF 0x78] ∧
    message_bytes "pwm_freq" (.int 20) false = .ok [_start_byte, 0x7a] ∧
    message_bytes "pwm_freq" (.int 20) true =
      .ok [_start_byte, 0x7a, notAndFF 0x7a] ∧
    message_bytes "gate_logic" (.str "up") false = .ok [_start_byte, 0x7a] ∧
    message_bytes "gate_logic" (.str "up") true =
      .ok [_start_byte, 0x7a, notAndFF 0x7a] ∧
    message_bytes "gate_logic" (.str "down") false = .ok [_start_byte, 0x7b] ∧
    message_bytes "gate_logic" (.str "down") true =
      .ok [_start_byte, 0x7b, notAndFF 0x7b] ∧
    message_bytes "max_pwm" (.int 95) false = .ok [_start_byte, 0x7c] ∧
    message_bytes "max_pwm" (.int 95) true =
      .ok [_start_byte, 0x7c, notAndFF 0x7c] ∧
    message_bytes "max_pwm" (.int 99) false = .ok [_start_byte, 0x7d] ∧
    message_bytes "max_pwm" (.int 99) true =
      .ok [_start_byte, 0x7d, notAndFF 0x7d] ∧
    message_bytes "lase_on_power_up" (.bool true) false =
      .ok [_start_byte, 0x30] ∧
    message_bytes "lase_on_power_up" (.bool true) true =
      .ok [_start_byte, 0x30, notAndFF 0x30] ∧
    message_bytes "lase_on_power_up" (.bool false) false =
      .ok [_start_byte, 0x31] ∧
    message_bytes "lase_on_power_up" (.bool false) true =
      .ok [_start_byte, 0x31, notAndFF 0x31] ∧
    message_bytes "mode" (.str "manual") false = .ok [_start_byte, 0x70] ∧
    message_bytes "mode" (.str "manual") true =
      .ok [_start_byte, 0x70, notAndFF 0x70] ∧
    message_bytes "mode" (.str "anc") false = .ok [_start_byte, 0x71] ∧
    message_bytes "mode" (.str "anc") true =
      .ok [_start_byte, 0x71, notAndFF 0x71] ∧
    message_bytes "mode" (.str "anv") false = .ok [_start_byte, 0x72] ∧
    message_bytes "mode" (.str "anv") true =
      .ok [_start_byte, 0x72, notAndFF 0x72] ∧
    message_bytes "mode" (.str "man_closed") false = .ok [_start_byte, 0x73] ∧
    message_bytes "mode" (.str "man_closed") true =
      .ok [_start_byte, 0x73, notAndFF 0x73] ∧
    message_bytes "mode" (.str "anv_closed") false = .ok [_start_byte, 0x74] ∧
    message_bytes "mode" (.str "anv_closed") true =
      .ok [_start_byte, 0x74, notAndFF 0x74] ∧
    message_bytes "lase" (.bool true) false = .ok [_start_byte, 0x75] ∧
    message_bytes "lase" (.bool true) true =
      .ok [_start_byte, 0x75, notAndFF 0x75] ∧
    message_bytes "lase" (.bool false) false = .ok [_start_byte, 0x76] ∧
    message_bytes "lase" (.bool false) true =
      .ok [_start_byte, 0x76, notAndFF 0x76] :=
  ⟨rfl, rfl, rfl, rfl, rfl, rfl, rfl, rfl, rfl, rfl, rfl, rfl, rfl, rfl,
   rfl, rfl, rfl, rfl, rfl, rfl, rfl, rfl, rfl, rfl, rfl, rfl, rfl, rfl,
   rfl, rfl, rfl, rfl⟩

/-- C5: the status-request message is the single byte 0x7e, whatever the
data and checksum arguments are. -/
theorem C5_status_request (_d : PyVal) (cs : Bool) :
    message_bytes "status_request" _d cs = .ok [_status_request_byte] :=
  rfl

/-- C9: the integer 1 is accepted in place of the key True and the
integer 0 in place of the key False for both boolean-keyed families,
producing identical successful messages, because the Python dict lookup
compares keys with numeric equality. -/
theorem C9_bool_int_catalog_keys (cs : Bool) :
    message_bytes "lase" (.int 1) cs = message_bytes "lase" (.bool true) cs ∧
    message_bytes "lase" (.int 0) cs = message_bytes "lase" (.bool false) cs ∧
    message_bytes "lase_on_power_up" (.int 1) cs =
      message_bytes "lase_on_power_up" (.bool true) cs ∧
    message_bytes "lase_on_power_up" (.int 0) cs =
      message_bytes "lase_on_power_up" (.bool false) cs ∧
    (∃ m, message_bytes "lase" (.int 1) cs = .ok m) ∧
    (∃ m, message_bytes "lase" (.int 0) cs = .ok m) ∧
    (∃ m, message_bytes "lase_on_power_up" (.int 1) cs = .ok m) ∧
    (∃ m, message_bytes "lase_on_power_up" (.int 0) cs = .ok m) := by
  cases cs <;>
    exact ⟨rfl, rfl, rfl, rfl, ⟨_, rfl⟩, ⟨_, rfl⟩, ⟨_, rfl⟩, ⟨_, rfl⟩⟩

/-- C10 counterexample: the empty string consists only of decimal digits
(vacuously), yet the percent encoding of it fails, because 2 * "" is ""
and int("") raises ValueError; so the claimed universal statement over
all digit-only strings is false at s = "". -/
theorem C10_empty_string_counterexample :
    "".data.all Char.isDigit = true ∧
    message_bytes "percent" (.str "") false = .error .valueErrorData :=
  ⟨rfl, rfl⟩

/-- C10 (amended): for every non-empty string s of decimal digits, the
percent encoding with checksum disabled does not fail and returns
[0x5b, 0x7f, n] with n the value of the digit string s written twice in
succession; and the data conversion error is raised only when the
integer conversion of the repeated string fails. -/
theorem C10_digit_string_data :
    (∀ s : String, s.data ≠ [] → s.data.all Char.isDigit = true →
      message_bytes "percent" (.str s) false =
        .ok [_start_byte, _set_percent_byte,
             ((digitsToNat (s.data ++ s.data) : Nat) : Int)]) ∧
    (∀ s : String, (∃ e, message_bytes "percent" (.str s) false = .error e) →
      pyIntOfString (s ++ s) = none) := by
  constructor
  · intro s h1 h2
    obtain ⟨cs⟩ := s
    rw [message_bytes_percent]
    have hint : pyInt (pyMul2 (.str ⟨cs⟩)) =
        some ((digitsToNat (cs ++ cs) : Nat) : Int) := by
      show pyIntOfChars (cs ++ cs) = _
      rcases cs with _ | ⟨c, rest⟩
      · exact absurd rfl h1
      · refine pyIntOfChars_digits c (rest ++ c :: rest) ?_
        show ((c :: rest) ++ (c :: rest)).all Char.isDigit = true
        rw [List.all_append]
        rw [show (c :: rest).all Char.isDigit = true from h2]
        rfl
    rw [hint]
    rfl
  · intro s he
    rcases hi : pyInt (pyMul2 (.str s)) with _ | db
    · exact hi
    · obtain ⟨e, he⟩ := he
      rw [message_bytes_percent, hi] at he
      simp at he

/-- C10 witness: the amended statement instantiated at the digit string
10 (giving the three-element message whose data entry 1010 exceeds one
byte), and the only-on-failure direction at the non-numeric string x. -/
theorem C10_digit_string_data_witness :
    message_bytes "percent" (.str "10") false = .ok [0x5b, 0x7f, 1010] ∧
    pyIntOfString ("x" ++ "x") = none :=
  ⟨C10_digit_string_data.1 "10" (by decide) (by decide),
   C10_digit_string_data.2 "x" ⟨.valueErrorData, rfl⟩⟩

/-- C6: an InvalidData failure (the KeyError of an illegal catalog key,
or the ValueError of a failed percent-data conversion) occurs exactly
when the command resolves to a catalog family whose lookup of the data
misses, or the command is percent and int(2 * data) fails; every call
either fully succeeds with a message or fails with an error, and the
illegal mode key of the claim fails with the KeyError. -/
theorem C6_invalid_data :
    (∀ (c : String) (d : PyVal) (cs : Bool),
      ((∃ e, message_bytes c d cs = .error e ∧ IsInvalidData e) ↔
        ((∃ entries, famLookup c = some entries ∧
            keyLookup entries d = none) ∨
         (c = "percent" ∧ pyInt (pyMul2 d) = none))) ∧
      ((∃ m, message_bytes c d cs = .ok m) ∨
       (∃ e, message_bytes c d cs = .error e))) ∧
    message_bytes "mode" (.str "invalid_key") false = .error .keyError := by
  refine ⟨fun c d cs => ⟨?_, ?_⟩, rfl⟩
  · rcases message_bytes_cases c d cs with
      ⟨entries, b, hf, hk, hm⟩ | ⟨entries, hf, hk, hm⟩ | ⟨hf, hp, hi, hm⟩ |
      ⟨hf, hp, hcs, db, hi, hm⟩ | ⟨hf, hp, hcs, db, n, hi, hn, hm⟩ |
      ⟨hf, hp, hcs, ⟨db, hi⟩, hn, hm⟩ | ⟨hf, hp, hs, hm⟩ | ⟨hf, hp, hs, hm⟩
    · refine iff_of_false ?_ ?_
      · rintro ⟨e, he, _⟩
        rw [hm] at he
        cases cs <;> simp at he
      · rintro (⟨entries2, hf2, hk2⟩ | ⟨hp, _⟩)
        · rw [hf] at hf2
          injection hf2 with h
          subst h
          rw [hk] at hk2
          cases hk2
        · subst hp
          rw [famLookup_percent] at hf
          cases hf
    · exact iff_of_true ⟨.keyError, hm, Or.inl rfl⟩ (Or.inl ⟨entries, hf, hk⟩)
    · exact iff_of_true ⟨.valueErrorData, hm, Or.inr rfl⟩ (Or.inr ⟨hp, hi⟩)
    · refine iff_of_false ?_ ?_
      · rintro ⟨e, he, _⟩
        rw [hm] at he
        cases he
      · rintro (⟨entries2, hf2, _⟩ | ⟨_, hi2⟩)
        · rw [hf] at hf2
          cases hf2
        · rw [hi] at hi2
          cases hi2
    · refine iff_of_false ?_ ?_
      · rintro ⟨e, he, _⟩
        rw [hm] at he
        cases he
      · rintro (⟨entries2, hf2, _⟩ | ⟨_, hi2⟩)
        · rw [hf] at hf2
          cases hf2
        · rw [hi] at hi2
          cases hi2
    · refine iff_of_false ?_ ?_
      · rintro ⟨e, he, hbad⟩
        rw [hm] at he
        injection he with h
        subst h
        rcases hbad with h | h <;> cases h
      · rintro (⟨entries2, hf2, _⟩ | ⟨_, hi2⟩)
        · rw [hf] at hf2
          cases hf2
        · rw [hi] at hi2
          cases hi2
    · refine iff_of_false ?_ ?_
      · rintro ⟨e, he, _⟩
        rw [hm] at he
        cases he
      · rintro (⟨entries2, hf2, _⟩ | ⟨hp2, _⟩)
        · rw [hf] at hf2
          cases hf2
        · exact hp hp2
    · refine iff_of_false ?_ ?_
      · rintro ⟨e, he, hbad⟩
        rw [hm] at he
        injection he with h
        subst h
        rcases hbad with h | h <;> cases h
      · rintro (⟨entries2, hf2, _⟩ | ⟨hp2, _⟩)
        · rw [hf] at hf2
          cases hf2
        · exact hp hp2
  · rcases h : message_bytes c d cs with e | m
    · exact Or.inr ⟨e, rfl⟩
    · exact Or.inl ⟨m, rfl⟩

/-- C7: the unrecognised-command ValueError occurs exactly when the
command is none of the six catalog family names, not percent and not
status_request; in particular the command nonexistent fails that way. -/
theorem C7_unrecognized_command :
    (∀ (c : String) (d : PyVal) (cs : Bool),
      (message_bytes c d cs = .error .valueErrorCommand ↔
        (famLookup c = none ∧ c ≠ "percent" ∧ c ≠ "status_request"))) ∧
    message_bytes "nonexistent" (.int 1) false = .error .valueErrorCommand := by
  refine ⟨fun c d cs => ?_, rfl⟩
  rcases message_bytes_cases c d cs with
    ⟨entries, b, hf, hk, hm⟩ | ⟨entries, hf, hk, hm⟩ | ⟨hf, hp, hi, hm⟩ |
    ⟨hf, hp, hcs, db, hi, hm⟩ | ⟨hf, hp, hcs, db, n, hi, hn, hm⟩ |
    ⟨hf, hp, hcs, ⟨db, hi⟩, hn, hm⟩ | ⟨hf, hp, hs, hm⟩ | ⟨hf, hp, hs, hm⟩
  · refine iff_of_false ?_ ?_
    · intro he
      rw [hm] at he
      cases cs <;> simp at he
    · rintro ⟨hf2, _, _⟩
      rw [hf] at hf2
      cases hf2
  · refine iff_of_false ?_ ?_
    · intro he
      rw [hm] at he
      injection he with h
      cases h
    · rintro ⟨hf2, _, _⟩
      rw [hf] at hf2
      cases hf2
  · refine iff_of_false ?_ ?_
    · intro he
      rw [hm] at he
      injection he with h
      cases h
    · rintro ⟨_, hp2, _⟩
      exact hp2 hp
  · refine iff_of_false ?_ ?_
    · intro he
      rw [hm] at he
      cases he
    · rintro ⟨_, hp2, _⟩
      exact hp2 hp
  · refine iff_of_false ?_ ?_
    · intro he
      rw [hm] at he
      cases he
    · rintro ⟨_, hp2, _⟩
      exact hp2 hp
  · refine iff_of_false ?_ ?_
    · intro he
      rw [hm] at he
      injection he with h
      cases h
    · rintro ⟨_, hp2, _⟩
      exact hp2 hp
  · refine iff_of_false ?_ ?_
    · intro he
      rw [hm] at he
      cases he
    · rintro ⟨_, _, hs2⟩
      exact hs2 hs
  · exact iff_of_true hm ⟨hf, hp, hs⟩

/-- C6 witness: the InvalidData characterisation instantiated at the
illegal mode key of the claim, with its catalog-miss side discharged by
computation. -/
theorem C6_invalid_data_witness :
    ∃ e, message_bytes "mode" (.str "invalid_key") false = .error e ∧
      IsInvalidData e :=
  (C6_invalid_data.1 "mode" (.str "invalid_key") false).1.mpr
    (Or.inl ⟨[(.str "manual", 0x70), (.str "anc", 0x71), (.str "anv", 0x72),
              (.str "man_closed", 0x73), (.str "anv_closed", 0x74)], rfl, rfl⟩)

/-- C7 witness: the UnrecognizedCommand characterisation instantiated at
the command nonexistent of the claim, with the three side conditions
discharged by computation. -/
theorem C7_unrecognized_command_witness :
    message_bytes "nonexistent" (.int 1) false = .error .valueErrorCommand :=
  (C7_unrecognized_command.1 "nonexistent" (.int 1) false).mpr
    ⟨rfl, by decide, by decide⟩

/-- C8: every successful encoding with legal data (for percent, a number
between 0 and 100) is a sequence of 1 to 4 integers, each between 0 and
255, of exact length fixed by the command shape: 2 bytes for a catalog
family (3 with checksum), 3 for percent (4 with checksum), 1 for the
status request. -/
theorem C8_byte_ranges (c : String) (d : PyVal) (cs : Bool) (msg : List Int)
    (hok : message_bytes c d cs = .ok msg)
    (hleg : c = "percent" → ∃ n, pyNum d = some n ∧ 0 ≤ n ∧ n ≤ 100) :
    (1 ≤ msg.length ∧ msg.length ≤ 4) ∧
    (∀ b ∈ msg, 0 ≤ b ∧ b ≤ 255) ∧
    ((famLookup c).isSome = true → msg.length = if cs then 3 else 2) ∧
    (c = "percent" → msg.length = if cs then 4 else 3) ∧
    (c = "status_request" → msg.length = 1) := by
  rcases message_bytes_cases c d cs with
    ⟨entries, b, hf, hk, hm⟩ | ⟨entries, hf, hk, hm⟩ | ⟨hf, hp, hi, hm⟩ |
    ⟨hf, hp, hcs, db, hi, hm⟩ | ⟨hf, hp, hcs, db, n, hi, hn, hm⟩ |
    ⟨hf, hp, hcs, ⟨db, hi⟩, hn, hm⟩ | ⟨hf, hp, hs, hm⟩ | ⟨hf, hp, hs, hm⟩
  · rw [hm] at hok
    cases cs
    · simp only [Bool.false_eq_true, if_false] at hok
      injection hok with h
      subst h
      refine ⟨⟨by norm_num, by norm_num⟩, ?_, fun _ => rfl, ?_, ?_⟩
      · intro x hx
        simp only [List.mem_cons, List.not_mem_nil, or_false] at hx
        rcases hx with rfl | rfl
        · exact ⟨by decide, by decide⟩
        · exact keyLookup_range c entries d x hf hk
      · intro hp
        subst hp
        rw [famLookup_percent] at hf
        cases hf
      · intro hs
        subst hs
        rw [famLookup_status_request] at hf
        cases hf
    · simp only [if_true] at hok
      injection hok with h
      subst h
      refine ⟨⟨by norm_num, by norm_num⟩, ?_, fun _ => rfl, ?_, ?_⟩
      · intro x hx
        simp only [List.mem_cons, List.not_mem_nil, or_false] at hx
        rcases hx with rfl | rfl | rfl
        · exact ⟨by decide, by decide⟩
        · exact keyLookup_range c entries d x hf hk
        · exact notAndFF_range b
      · intro hp
        subst hp
        rw [famLookup_percent] at hf
        cases hf
      · intro hs
        subst hs
        rw [famLookup_status_request] at hf
        cases hf
  · rw [hm] at hok
    cases hok
  · rw [hm] at hok
    cases hok
  · subst hcs
    rw [hm] at hok
    injection hok with h
    subst h
    obtain ⟨n, hn, h0, h100⟩ := hleg hp
    have h2n := pyInt_pyMul2_num d n hn
    rw [hi] at h2n
    injection h2n with h2n
    subst h2n
    refine ⟨⟨by norm_num, by norm_num⟩, ?_, ?_, fun _ => rfl, ?_⟩
    · intro x hx
      simp only [List.mem_cons, List.not_mem_nil, or_false] at hx
      rcases hx with rfl | rfl | rfl
      · exact ⟨by decide, by decide⟩
      · exact ⟨by decide, by decide⟩
      · constructor <;> omega
    · intro hsome
      rw [hf] at hsome
      cases hsome
    · intro hs2
      exact absurd (hp.symm.trans hs2) (by decide)
  · subst hcs
    rw [hm] at hok
    injection hok with h
    subst h
    obtain ⟨n2, hn2, h0, h100⟩ := hleg hp
    rw [hn] at hn2
    injection hn2 with hn2
    subst hn2
    have h2n := pyInt_pyMul2_num d n hn
    rw [hi] at h2n
    injection h2n with h2n
    subst h2n
    refine ⟨⟨by norm_num, by norm_num⟩, ?_, ?_, fun _ => rfl, ?_⟩
    · intro x hx
      simp only [List.mem_cons, List.not_mem_nil, or_false] at hx
      rcases hx with rfl | rfl | rfl | rfl
      · exact ⟨by decide, by decide⟩
      · exact ⟨by decide, by decide⟩
      · constructor <;> omega
      · exact notAndFF_range _
    · intro hsome
      rw [hf] at hsome
      cases hsome
    · intro hs2
      exact absurd (hp.symm.trans hs2) (by decide)
  · rw [hm] at hok
    cases hok
  · rw [hm] at hok
    injection hok with h
    subst h
    refine ⟨⟨by norm_num, by norm_num⟩, ?_, ?_, ?_, fun _ => rfl⟩
    · intro x hx
      simp only [List.mem_cons, List.not_mem_nil, or_false] at hx
      rcases hx with rfl
      exact ⟨by decide, by decide⟩
    · intro hsome
      rw [hf] at hsome
      cases hsome
    · intro hp2
      exact absurd hp2 hp
  · rw [hm] at hok
    cases hok

/-- C8 witness: the percent encoding of 10 with checksum enabled is the
four-byte message [0x5b, 0x7f, 20, 244], which satisfies every range
and length conclusion. -/
theorem C8_byte_ranges_witness :
    (1 ≤ ([0x5b, 0x7f, 20, 244] : List Int).length ∧
      ([0x5b, 0x7f, 20, 244] : List Int).length ≤ 4) ∧
    (∀ b ∈ ([0x5b, 0x7f, 20, 244] : List Int), 0 ≤ b ∧ b ≤ 255) ∧
    ((famLookup "percent").isSome = true →
      ([0x5b, 0x7f, 20, 244] : List Int).length = 3) ∧
    ("percent" = "percent" → ([0x5b, 0x7f, 20, 244] : List Int).length = 4) ∧
    ("percent" = "status_request" →
      ([0x5b, 0x7f, 20, 244] : List Int).length = 1) :=
  C8_byte_ranges "percent" (.int 10) true [0x5b, 0x7f, 20, 244] rfl
    (fun _ => ⟨10, rfl, by decide, by decide⟩)

end SynradUC2000
